import Mathlib

/-!
Shallow embedding of the `CrossSimilarityMatrix` algorithm of the essentia
repository (file `src/algorithms/highlevel/crosssimilaritymatrix.cpp`),
together with theorems settling the claims of the specification.

Conventions of the embedding:
* `Real` (a C++ `float` in the source) is modelled as `ℚ`, so every
  definition is executable and every concrete run is decidable.
* a feature matrix `std::vector<std::vector<Real>>` is a `List (List ℚ)`;
* C++ `int` loop bounds that are non-negative in every reachable state are
  modelled as `ℕ`; the one place the source can compute a negative size
  (`frameSize` in `toTimeEmbedding`) is modelled by `toTimeEmbeddingCall`,
  which signals the `std::length_error` the vector constructor throws there,
  while `toTimeEmbedding` is the row construction of the non-negative
  regime;
* a thrown `EssentiaException` is an `Except.error`;
* helper routines that live in `essentiamath.h` and in the bundled TNT
  library (not under `src/`) are modelled from the specification; each such
  definition carries a doc comment starting with `Modelled from the spec:`.
-/

/-- Matrix of rational feature values: one inner list per feature frame. -/
abbrev Mat : Type := List (List ℚ)

/-- Exceptions escaping a batch `compute` call.  `emptyInput` and
`emptyResult` are the `EssentiaException` kinds of section 7 of the spec
(the two empty-input throws at the top of `compute` and the
empty-distance-matrix throw inside the distance path); `lengthError` is the
`std::length_error` that `std::vector` raises when `toTimeEmbedding` asks it
for a negative (wrapped to enormous) number of rows -- not an
`EssentiaException` at all, but an exception the caller observes all the
same. -/
inductive Err : Type
  | emptyInput : Err
  | emptyResult : Err
  | lengthError : Err
deriving DecidableEq, Repr

/-- Equality of batch results is decidable, so concrete runs can be checked
by evaluation. -/
instance : DecidableEq (Except Err Mat) := fun x y =>
  match x, y with
  | Except.ok a, Except.ok b => decidable_of_iff (a = b) (by simp)
  | Except.error a, Except.error b => decidable_of_iff (a = b) (by simp)
  | Except.ok _, Except.error _ => isFalse (by simp)
  | Except.error _, Except.ok _ => isFalse (by simp)

/-- Configuration of the engine, mirroring `CrossSimilarityMatrix::configure`.
The integer parameters are non-negative by the configuration contract
(`tau >= 1`, `embedDimension >= 1`, `noti >= 0`), so they are `ℕ` here. -/
structure Params : Type where
  tau : ℕ
  embedDimension : ℕ
  kappa : ℚ
  noti : ℕ
  oti : Bool
  otiBinary : Bool
  toBlocked : Bool
  optimiseThreshold : Bool
deriving DecidableEq, Repr

/-- Right rotation of a list by `i` places: the translation of
`std::rotate(v.begin(), v.end() - i, v.end())`, which moves the last `i`
elements to the front.  For `i` larger than the length (out of the source
contract, where `i` is always at most the length) the list is unchanged. -/
def rotateRight (l : List α) (i : ℕ) : List α :=
  l.drop (l.length - i) ++ l.take (l.length - i)

/-- Modelled from the spec: `essentia::dotProduct` (in `essentiamath.h`, not
under `src/`) is the dot product of two vectors, section 4.2 of the spec. -/
def dotProduct : List ℚ → List ℚ → ℚ
  | a :: as, b :: bs => a * b + dotProduct as bs
  | _, _ => 0

/-- Auxiliary loop of `argmax`: scan the remaining entries, keeping the value
and index of the current first maximum; a later entry replaces it only when
strictly greater, which is exactly the behaviour of `std::max_element`. -/
def argmaxAux : List ℚ → ℕ → ℚ → ℕ → ℕ
  | [], _, _, best => best
  | x :: xs, idx, bv, best =>
      if bv < x then argmaxAux xs (idx + 1) x idx else argmaxAux xs (idx + 1) bv best

/-- Modelled from the spec: `essentia::argmax` (in `essentiamath.h`, not under
`src/`) returns the index of the first maximum element, the first-maximum
tie-breaking stated in section 4.2 of the spec. -/
def argmax : List ℚ → ℕ
  | [] => 0
  | x :: xs => argmaxAux xs 1 x 0

/-- Maximum element of a list, `0` for the empty list (the source never asks
for the maximum of an empty vector). -/
def listMax : List ℚ → ℚ
  | [] => 0
  | x :: xs => xs.foldl max x

/-- Modelled from the spec: `essentia::normalize` (in `essentiamath.h`, not
under `src/`) divides a vector by its maximum element, leaving the vector
unchanged when it is empty or its maximum is zero (the degenerate all-zero
case of section 4.2 of the spec). -/
def normalizeVec (v : List ℚ) : List ℚ :=
  if v = [] then v
  else if listMax v = 0 then v
  else v.map (fun x => x / listMax v)

/-- Translation of `globalAverageChroma` (source lines 326 to 342): per-bin
sums across all frames, then normalization by the maximum element. -/
def globalAverageChroma (inputFeature : Mat) : List ℚ :=
  let numbins := (inputFeature.headD []).length
  normalizeVec ((List.range numbins).map (fun j =>
    (inputFeature.map (fun row => row.getD j 0)).sum))

/-- Translation of `optimalTranspositionIndex` (source lines 345 to 360):
dot products of the query global chroma against every right rotation of the
reference global chroma for shifts `0 .. nshifts`, then the first arg-max. -/
def optimalTranspositionIndex (chromaA chromaB : Mat) (nshifts : ℕ) : ℕ :=
  let globalChromaA := globalAverageChroma chromaA
  let globalChromaB := globalAverageChroma chromaB
  argmax ((List.range (nshifts + 1)).map (fun i =>
    dotProduct globalChromaA (rotateRight globalChromaB i)))

/-- One embedded frame of `toTimeEmbedding`: the concatenation of the input
rows `i, i + tau, ..., i + (m-1)*tau` built by the inner loop of the source. -/
def embedRow (inputArray : Mat) (i m tau : ℕ) : List ℚ :=
  (List.range m).flatMap (fun j => inputArray.getD (i + j * tau) [])

/-- Row construction of `toTimeEmbedding` (source lines 365 to 392).  With
`m = 1` the input is returned unchanged.  Otherwise the output has
`frameSize = inputArray.length - m*tau` rows, preallocated as zero rows of
width `numbins * m`; the outer loop `for (i = 0; i < frameSize; i += tau)`
only writes the rows whose index is a multiple of `tau` (the translation
guards with `i % tau = 0`, equivalent for the contractual `tau >= 1`), each
written row being the concatenation of the `m` frames spaced `tau` apart.
The truncated subtraction here coincides with the source exactly when
`frameSize` is non-negative; when the input is shorter than `m*tau` frames
the source never reaches the loop at all (the vector constructor throws
first), which is modelled by `toTimeEmbeddingCall` below -- every use of
this function stands under that guard or under hypotheses that keep
`frameSize` positive. -/
def toTimeEmbedding (inputArray : Mat) (m tau : ℕ) : Mat :=
  if m = 1 then inputArray
  else
    let increment := m * tau
    let frameSize := inputArray.length - increment
    let yDim := (inputArray.headD []).length * m
    (List.range frameSize).map (fun i =>
      if i % tau = 0 then embedRow inputArray i m tau
      else List.replicate yDim (0 : ℚ))

/-- The `toTimeEmbedding` call as its caller observes it.  In the source,
`frameSize` is a C++ `int`; when `m` is not `1` and the input holds fewer
than `m*tau` frames it is negative, and `std::vector(frameSize, ...)`
converts it to an enormous `size_t` and throws `std::length_error` before
any row is built.  Otherwise the call returns the rows the loop builds. -/
def toTimeEmbeddingCall (inputArray : Mat) (m tau : ℕ) : Except Err Mat :=
  if m ≠ 1 ∧ inputArray.length < m * tau then Except.error Err.lengthError
  else Except.ok (toTimeEmbedding inputArray m tau)

/-- Translation of `chromaBinarySimMatrix` (source lines 395 to 424): for
every frame pair the first arg-max shift of the dot products over rotations
`0 .. nshifts` of the reference frame; shift `0` or `1` scores `matchCoef`,
anything else `mismatchCoef`. -/
def chromaBinarySimMatrix (chromaA chromaB : Mat) (nshifts : ℕ)
    (matchCoef mismatchCoef : ℚ) : Mat :=
  chromaA.map (fun ra =>
    chromaB.map (fun rb =>
      let otiIndex := argmax ((List.range (nshifts + 1)).map (fun k =>
        dotProduct ra (rotateRight rb k)))
      if otiIndex = 0 ∨ otiIndex = 1 then matchCoef else mismatchCoef))

/-- Modelled from the spec: the squared Euclidean distance
`dot(a,a) - 2*dot(a,b) + dot(b,b)` between two frames.  The monotone square
root taken by `essentia::pairwiseDistance` (in `essentiamath.h`, not under
`src/`) is omitted: the claims below use the distances only through their
shape and through order-based thresholds. -/
def sqEuclid (a b : List ℚ) : ℚ :=
  dotProduct a a - 2 * dotProduct a b + dotProduct b b

/-- Modelled from the spec: `essentia::pairwiseDistance` (not under `src/`)
returns the dense pairwise distance matrix, rows indexed by the first
argument and columns by the second (section 3 of the spec). -/
def pairwiseDistance (a b : Mat) : Mat :=
  a.map (fun ra => b.map (fun rb => sqEuclid ra rb))

/-- Modelled from the spec: `essentia::transpose` (not under `src/`) is the
standard matrix transpose; the width is taken from the first row, as in the
rectangular matrices the engine builds. -/
def transpose (m : Mat) : Mat :=
  (List.range (m.headD []).length).map (fun j => m.map (fun row => row.getD j 0))

/-- Insert into a sorted list, ascending. -/
def insertAsc (x : ℚ) : List ℚ → List ℚ
  | [] => [x]
  | y :: ys => if x ≤ y then x :: y :: ys else y :: insertAsc x ys

/-- Insertion sort, ascending; used by the percentile model. -/
def sortAsc : List ℚ → List ℚ
  | [] => []
  | x :: xs => insertAsc x (sortAsc xs)

/-- Rank of the `q`-th percentile in a sorted vector of length `n`: the
integer part of `(n - 1) * q / 100`, computed in `ℕ` (`0` for a
non-positive `q`, which is outside the configuration contract). -/
def percentileIndex (n : ℕ) (q : ℚ) : ℕ :=
  if q ≤ 0 then 0 else ((n - 1) * q.num.toNat) / (100 * q.den)

/-- Modelled from the spec: `essentia::percentile` (in `essentiamath.h`, not
under `src/`) computes the `q`-th percentile (`q` in `[0,100]`) of a vector:
sort ascending and take the entry at rank `(n-1) * q / 100` (nearest lower
rank).  At `q = 100` this is the row maximum, the property section 8 of the
spec relies on; no claim depends on the value of an intermediate quantile. -/
def percentile (a : List ℚ) (q : ℚ) : ℚ :=
  let s := sortAsc a
  if s.length = 0 then 0
  else s.getD (min (percentileIndex s.length q) (s.length - 1)) 0

/-- Modelled from the spec: `essentia::heavisideStepFunction` (not under
`src/`) maps every negative entry to `0` and every non-negative entry to `1`
(section 4.4 of the spec: entries exactly at the threshold count as
similar). -/
def heavisideStepFunction (m : Mat) : Mat :=
  m.map (List.map (fun x => if x < 0 then (0 : ℚ) else 1))

/-- Modelled from the spec: the mask-combination primitive of the Combine
step (section 4.5).  The source calls `TNT::operator*` of the bundled TNT
library (not under `src/`), whose `Array2D` arithmetic operators work element
by element on equal-shaped arrays and return the null (empty) array when the
shapes differ.  The element-wise reading is the one consistent with the rest
of the spec: it is what makes the 0/1 masks combine to the stated logical
AND and what produces the diagonal entries equal to 1 in the end-to-end
scenario of section 8 (a matrix product would produce row counts there). -/
def elemMul (a b : Mat) : Mat :=
  if a.length = b.length ∧ (a.headD []).length = (b.headD []).length then
    List.zipWith (fun ra rb => List.zipWith (fun x y => x * y) ra rb) a b
  else []

/-- Total entry accessor for a matrix, with default `0` out of range. -/
def entry (m : Mat) (i j : ℕ) : ℚ :=
  (m.getD i []).getD j 0

/-- Entry `(i, j)` of the standard matrix product of `a` and `b`, the sum
over `k` (below the inner dimension, the width of `a`) of
`a[i][k] * b[k][j]`; this is the combination the claim about the Combine
step asserts. -/
def matProdEntry (a b : Mat) (i j : ℕ) : ℚ :=
  ((List.range (a.headD []).length).map (fun k => entry a i k * entry b k j)).sum

/-- The reference sequence the distance path works on: rotated right by the
optimal transposition index when `oti` is set (source lines 96 to 99),
otherwise the reference itself. -/
def rotatedReference (cfg : Params) (queryFeature referenceFeature : Mat) : Mat :=
  if cfg.oti then
    rotateRight referenceFeature
      (optimalTranspositionIndex queryFeature referenceFeature cfg.noti)
  else referenceFeature

/-- Embedded query of the batch distance path (source line 102). -/
def batchEmbedA (cfg : Params) (queryFeature : Mat) : Mat :=
  toTimeEmbedding queryFeature cfg.embedDimension cfg.tau

/-- Embedded (possibly rotated) reference of the batch distance path
(source line 103). -/
def batchEmbedB (cfg : Params) (queryFeature referenceFeature : Mat) : Mat :=
  toTimeEmbedding (rotatedReference cfg queryFeature referenceFeature)
    cfg.embedDimension cfg.tau

/-- Pairwise distance matrix of the batch distance path (source line 106). -/
def batchPdistances (cfg : Params) (queryFeature referenceFeature : Mat) : Mat :=
  pairwiseDistance (batchEmbedA cfg queryFeature)
    (batchEmbedB cfg queryFeature referenceFeature)

/-- Query-axis mask of the batch distance path (source lines 118 to 133):
all ones when `optimiseThreshold` is set, otherwise the Heaviside step of the
row-percentile threshold minus each distance. -/
def batchSimilarityX (cfg : Params) (queryFeature referenceFeature : Mat) : Mat :=
  let pdistances := batchPdistances cfg queryFeature referenceFeature
  let xRows := pdistances.length
  let xCols := (pdistances.headD []).length
  if cfg.optimiseThreshold then
    List.replicate xRows (List.replicate xCols (1 : ℚ))
  else
    heavisideStepFunction ((List.range xRows).map (fun k =>
      (List.range xCols).map (fun l =>
        percentile (pdistances.getD k []) (cfg.kappa * 100) -
          (pdistances.getD k []).getD l 0)))

/-- Reference-axis thresholded matrix of the batch distance path (source
lines 137 to 144), built over the transposed distance matrix. -/
def batchSimilarityY (cfg : Params) (queryFeature referenceFeature : Mat) : Mat :=
  let tpDistances := transpose (batchPdistances cfg queryFeature referenceFeature)
  let yRows := tpDistances.length
  let yCols := (tpDistances.headD []).length
  (List.range yRows).map (fun u =>
    (List.range yCols).map (fun v =>
      percentile (tpDistances.getD u []) (cfg.kappa * 100) -
        (tpDistances.getD u []).getD v 0))

/-- Binarized and transposed reference-axis mask of the batch distance path
(source lines 147 to 157): entry `(j, i)` is `1` exactly when the
thresholded value at `(i, j)` is non-negative. -/
def batchTSimilarityY (cfg : Params) (queryFeature referenceFeature : Mat) : Mat :=
  let tpDistances := transpose (batchPdistances cfg queryFeature referenceFeature)
  let yRows := tpDistances.length
  let yCols := (tpDistances.headD []).length
  let similarityY := batchSimilarityY cfg queryFeature referenceFeature
  (List.range yCols).map (fun j =>
    (List.range yRows).map (fun i =>
      if (similarityY.getD i []).getD j 0 < 0 then (0 : ℚ) else 1))

/-- Final matrix of the batch distance path (source lines 160 to 163): the
two masks combined by the TNT element-wise product. -/
def batchCsm (cfg : Params) (queryFeature referenceFeature : Mat) : Mat :=
  elemMul (batchSimilarityX cfg queryFeature referenceFeature)
    (batchTSimilarityY cfg queryFeature referenceFeature)

/-- Translation of `standard::CrossSimilarityMatrix::compute` (source lines
67 to 165).  The two empty-input checks come first.  With `otiBinary` set
and `toBlocked` set, the source computes two time embeddings only to
discard them -- the calls can still throw `std::length_error` on inputs
shorter than `embedDimension*tau` -- and then scores the raw inputs; with
`toBlocked` unset the scorer runs directly on the raw inputs and nothing is
embedded.  The distance path embeds the query and the (possibly rotated)
reference through the same throwing calls, then fails with `emptyResult`
when the pairwise distance matrix is empty, and otherwise returns the
combined matrix; in the non-throwing case the checked calls return exactly
the `toTimeEmbedding` rows the named `batch...` definitions are built on. -/
def compute (cfg : Params) (queryFeature referenceFeature : Mat) : Except Err Mat :=
  if queryFeature = [] then Except.error Err.emptyInput
  else if referenceFeature = [] then Except.error Err.emptyInput
  else if cfg.otiBinary then
    if cfg.toBlocked then
      match toTimeEmbeddingCall queryFeature cfg.embedDimension cfg.tau,
          toTimeEmbeddingCall referenceFeature cfg.embedDimension cfg.tau with
      | Except.ok _timeEmbedA, Except.ok _timeEmbedB =>
          Except.ok (chromaBinarySimMatrix queryFeature referenceFeature cfg.noti 1 0)
      | _, _ => Except.error Err.lengthError
    else
      Except.ok (chromaBinarySimMatrix queryFeature referenceFeature cfg.noti 1 0)
  else
    match toTimeEmbeddingCall queryFeature cfg.embedDimension cfg.tau,
        toTimeEmbeddingCall (rotatedReference cfg queryFeature referenceFeature)
          cfg.embedDimension cfg.tau with
    | Except.ok _timeEmbedA, Except.ok _timeEmbedB =>
        if batchPdistances cfg queryFeature referenceFeature = [] then
          Except.error Err.emptyResult
        else
          Except.ok (batchCsm cfg queryFeature referenceFeature)
    | _, _ => Except.error Err.lengthError

/-- Minimum window of the streaming engine (source line 189):
`embedDimension + 1` frames. -/
def minFramesSize (cfg : Params) : ℕ :=
  cfg.embedDimension + 1

/-- Mutable state of one configured streaming engine instance.  The only
mutable datum `process` touches between invocations is the held reference
feature buffer `_referenceFeature`; no copy of the original reference is
kept anywhere else. -/
structure StreamState : Type where
  referenceFeature : Mat
deriving DecidableEq, Repr

/-- Translation of the padding loop of `streaming process` (source lines 227
to 231): when the acquired window is smaller than the minimum window, the
private copy is extended with `inputQueryFrames[i]` for
`i = 0 .. minSize - acquired.length - 1`, read from the start of the
acquired window.  Indexing past the end of the acquired window (which the
source does, out of bounds, whenever the shortfall exceeds the acquired
count) is `none`. -/
def padFrames (acquired : Mat) (minSize : ℕ) : Option Mat :=
  if acquired.length < minSize then
    (((List.range (minSize - acquired.length)).mapM (fun i => acquired.get? i)).map
      (fun extra => acquired ++ extra))
  else some acquired

/-- Distance-mode output of one streaming invocation (source lines 250 to
281): the query-axis mask is initialized to all ones with no
`optimiseThreshold` branch, the reference-axis mask is percentile-thresholded
over the transposed distances and binarize-transposed in one pass, and the
two are combined by the TNT element-wise product. -/
def streamDistanceCsm (kappa : ℚ) (queryTimeEmbed referenceTimeEmbed : Mat) : Mat :=
  let pdistances := pairwiseDistance queryTimeEmbed referenceTimeEmbed
  let tpDistances := transpose pdistances
  let yRows := tpDistances.length
  let yCols := (tpDistances.headD []).length
  let similarityX := List.replicate yCols (List.replicate yRows (1 : ℚ))
  let similarityY := (List.range yRows).map (fun u =>
    (List.range yCols).map (fun v =>
      percentile (tpDistances.getD u []) (kappa * 100) -
        (tpDistances.getD u []).getD v 0))
  let tSimilarityY := (List.range yCols).map (fun v =>
    (List.range yRows).map (fun u =>
      if (similarityY.getD u []).getD v 0 < 0 then (0 : ℚ) else 1))
  elemMul similarityX tSimilarityY

/-- Translation of the computation part of `streaming
CrossSimilarityMatrix::process` (source lines 221 to 286), given the frames
the invocation acquired.  The acquired frames are copied and padded when the
acquired count is below the minimum window; with `oti` set, the held
reference buffer is rotated in place by the optimal transposition index
computed against the padded copy; both sequences are then time embedded and
scored by the binary scorer or the distance path.  The result pairs the
emitted matrix token with the engine state after the invocation. -/
def processStreamStep (cfg : Params) (st : StreamState) (acquired : Mat) :
    Option (Mat × StreamState) :=
  match padFrames acquired (minFramesSize cfg) with
  | none => none
  | some inputFramesCopy =>
    let st1 : StreamState :=
      if cfg.oti then
        StreamState.mk (rotateRight st.referenceFeature
          (optimalTranspositionIndex inputFramesCopy st.referenceFeature cfg.noti))
      else st
    let queryTimeEmbed := toTimeEmbedding inputFramesCopy cfg.embedDimension cfg.tau
    let referenceTimeEmbed :=
      toTimeEmbedding st1.referenceFeature cfg.embedDimension cfg.tau
    if cfg.otiBinary then
      some (chromaBinarySimMatrix queryTimeEmbed referenceTimeEmbed cfg.noti 1 0, st1)
    else
      some (streamDistanceCsm cfg.kappa queryTimeEmbed referenceTimeEmbed, st1)

/-- Caller-visible buffers around one batch `compute` call: the two input
buffers the algorithm wrappers hold and the output buffer.  In the source
(lines 69 to 71) the locals `queryFeature` and `referenceFeature` are
declared by value, hence are copies of these buffers, while `csm` is a
reference into the output buffer. -/
structure BatchBuffers : Type where
  queryFeature : Mat
  referenceFeature : Mat
  csm : Mat
deriving DecidableEq, Repr

/-- Batch `compute` as a transformer of the caller-visible buffers: the
locals are by-value copies (source lines 69 and 70), every mutation inside
the call (the `oti` rotation of line 98 included) happens on the copies, and
only the output buffer is written through the `csm` reference; on a thrown
exception nothing has been written. -/
def computeEngine (cfg : Params) (s : BatchBuffers) : BatchBuffers × Option Err :=
  let queryFeature := s.queryFeature
  let referenceFeature := s.referenceFeature
  match compute cfg queryFeature referenceFeature with
  | Except.ok out => ({ s with csm := out }, none)
  | Except.error e => (s, some e)

/-- Scaling every frame of a feature matrix by a constant. -/
def scaleMat (c : ℚ) (m : Mat) : Mat :=
  m.map (List.map (fun x => c * x))

/-! Helper lemmas about the list primitives of the embedding. -/

theorem getD_zipWith {α β γ : Type} (f : α → β → γ) :
    ∀ (as : List α) (bs : List β) (i : ℕ) (da : α) (db : β) (dc : γ),
      i < as.length → i < bs.length →
      (List.zipWith f as bs).getD i dc = f (as.getD i da) (bs.getD i db) := by
  intro as
  induction as with
  | nil => intro bs i da db dc h1 h2; simp at h1
  | cons a as ih =>
    intro bs i da db dc h1 h2
    cases bs with
    | nil => simp at h2
    | cons b bs =>
      cases i with
      | zero => simp [List.getD]
      | succ n =>
        simp only [List.zipWith, List.getD_cons_succ]
        exact ih bs n da db dc (Nat.lt_of_succ_lt_succ h1) (Nat.lt_of_succ_lt_succ h2)

theorem getD_range_map {α : Type} (f : ℕ → α) (n i : ℕ) (d : α) (h : i < n) :
    ((List.range n).map f).getD i d = f i := by
  have hl : i < ((List.range n).map f).length := by simpa using h
  rw [List.getD_eq_getElem _ _ hl]
  simp

theorem getD_replicate_of_lt {α : Type} (x d : α) (n i : ℕ) (h : i < n) :
    (List.replicate n x).getD i d = x := by
  have hl : i < (List.replicate n x).length := by simpa using h
  rw [List.getD_eq_getElem _ _ hl]
  simp

theorem length_rotateRight (l : List α) (i : ℕ) :
    (rotateRight l i).length = l.length := by
  simp [rotateRight]

theorem rotateRight_map {α β : Type} (f : α → β) (l : List α) (i : ℕ) :
    rotateRight (l.map f) i = (rotateRight l i).map f := by
  simp [rotateRight, List.map_drop, List.map_take]

/-- Row count of a time embedding: the input length with `m = 1`, otherwise
the truncated difference `length - m * tau`. -/
theorem length_toTimeEmbedding (x : Mat) (m tau : ℕ) :
    (toTimeEmbedding x m tau).length =
      if m = 1 then x.length else x.length - m * tau := by
  by_cases h : m = 1 <;> simp [toTimeEmbedding, h]

/-! Claim C2: rows of the time embedding. -/

/-- C2 (counterexample): with `m = 2`, `tau = 2` and a 6-row input, both
embedded output rows exist, but output row `1` is the preallocated zero row,
not the concatenation of input rows `1` and `1 + tau = 3` the claim
asserts for every row index: the outer loop of `toTimeEmbedding` steps by
`tau` and never writes row `1`. -/
theorem C2_counterexample :
    (toTimeEmbedding [[(1 : ℚ)], [2], [3], [4], [5], [6]] 2 2).getD 1 [] ≠
      ([[(1 : ℚ)], [2], [3], [4], [5], [6]] : Mat).getD 1 [] ++
        ([[(1 : ℚ)], [2], [3], [4], [5], [6]] : Mat).getD (1 + 2) [] ∧
    (toTimeEmbedding [[(1 : ℚ)], [2], [3], [4], [5], [6]] 2 2).getD 1 [] = [0, 0] := by
  decide

/-- C2 (amended): for every `m >= 2`, `tau >= 1` and every row index `i` of
the time-embedding output, if `tau` divides `i` the row is exactly the
concatenation of input rows `i, i + tau, ..., i + (m-1)*tau`; rows at
indices not divisible by `tau` are never written by the loop and remain the
preallocated zero rows of width `numbins * m`.  (The original claim asserted
the concatenation shape for every row index, which fails for `tau >= 2`.) -/
theorem C2_theorem (input : Mat) (m tau i : ℕ) (hm : 2 ≤ m) (_ht : 1 ≤ tau)
    (hi : i < (toTimeEmbedding input m tau).length) :
    (tau ∣ i →
      (toTimeEmbedding input m tau).getD i [] =
        (List.range m).flatMap (fun j => input.getD (i + j * tau) [])) ∧
    (¬ tau ∣ i →
      (toTimeEmbedding input m tau).getD i [] =
        List.replicate ((input.headD []).length * m) 0) := by
  have hm1 : m ≠ 1 := by omega
  rw [length_toTimeEmbedding, if_neg hm1] at hi
  constructor
  · intro hd
    have hmod : i % tau = 0 := Nat.dvd_iff_mod_eq_zero.mp hd
    simp only [toTimeEmbedding, if_neg hm1]
    rw [getD_range_map _ _ _ _ hi]
    simp [hmod, embedRow]
  · intro hd
    have hmod : ¬ i % tau = 0 := fun h => hd (Nat.dvd_iff_mod_eq_zero.mpr h)
    simp only [toTimeEmbedding, if_neg hm1]
    rw [getD_range_map _ _ _ _ hi]
    simp [hmod]

/-- C2 (witness): the amended row law instantiated at `m = 2`, `tau = 1`,
row `1` of a concrete 5-row, 2-bin sequence. -/
theorem C2_witness :
    2 ≤ 2 ∧ 1 ≤ 1 ∧
    1 < (toTimeEmbedding [[(1 : ℚ), 10], [2, 20], [3, 30], [4, 40], [5, 50]] 2 1).length ∧
    ((1 ∣ 1 →
      (toTimeEmbedding [[(1 : ℚ), 10], [2, 20], [3, 30], [4, 40], [5, 50]] 2 1).getD 1 [] =
        (List.range 2).flatMap (fun j =>
          ([[(1 : ℚ), 10], [2, 20], [3, 30], [4, 40], [5, 50]] : Mat).getD (1 + j * 1) [])) ∧
    (¬ 1 ∣ 1 →
      (toTimeEmbedding [[(1 : ℚ), 10], [2, 20], [3, 30], [4, 40], [5, 50]] 2 1).getD 1 [] =
        List.replicate
          ((([[(1 : ℚ), 10], [2, 20], [3, 30], [4, 40], [5, 50]] : Mat).headD []).length * 2) 0)) := by
  refine ⟨by decide, by decide, by decide, ?_⟩
  exact C2_theorem _ 2 1 1 (by decide) (by decide) (by decide)

/-! Claim C7: short inputs and the time-embedding call. -/

/-- C7 (counterexample): a 3-frame sequence with `m = 2`, `tau = 2` is
shorter than `m*tau = 4` frames; the embedding call computes the negative
frame count `-1`, and the vector constructor throws `std::length_error`.
The call neither returns an empty result nor signals an `InvalidInput`
`EssentiaException` (the two `EssentiaException` kinds are distinct from the
length error), refuting the claim that no other behaviour can occur. -/
theorem C7_counterexample :
    toTimeEmbeddingCall [[(1 : ℚ)], [2], [3]] 2 2 = Except.error Err.lengthError ∧
    Err.lengthError ≠ Err.emptyInput ∧ Err.lengthError ≠ Err.emptyResult := by
  decide

/-- C7 (amended): for every `m >= 2` and `tau >= 1`, the time embedding of a
sequence strictly shorter than `m*tau` frames never produces frames, but the
failure is the `std::length_error` thrown by the vector constructor on the
negative frame count -- not an empty result and not an `InvalidInput`
`EssentiaException`. -/
theorem C7_theorem (input : Mat) (m tau : ℕ) (hm : 2 ≤ m) (_ht : 1 ≤ tau)
    (hlen : input.length < m * tau) :
    toTimeEmbeddingCall input m tau = Except.error Err.lengthError := by
  rw [toTimeEmbeddingCall, if_pos ⟨by omega, hlen⟩]

/-- C7 (witness): the length-error law at a 3-frame sequence with `m = 2`,
`tau = 2`. -/
theorem C7_witness :
    2 ≤ 2 ∧ 1 ≤ 2 ∧ ([[(1 : ℚ)], [2], [3]] : Mat).length < 2 * 2 ∧
    toTimeEmbeddingCall [[(1 : ℚ)], [2], [3]] 2 2 = Except.error Err.lengthError := by
  refine ⟨by decide, by decide, by decide, ?_⟩
  exact C7_theorem _ 2 2 (by decide) (by decide) (by decide)

/-! Claim C9: the empty-input error of batch compute. -/

/-- C9 (confirmed): batch `compute` returns the empty-input error exactly
when the query or the reference feature matrix is empty; the two checks are
the first statements of the function, so in those cases no output matrix is
produced, and no other path returns that error (the distance path can only
fail with the distinct empty-result error). -/
theorem C9_theorem (cfg : Params) (q r : Mat) :
    compute cfg q r = Except.error Err.emptyInput ↔ (q = [] ∨ r = []) := by
  constructor
  · intro h
    by_contra hc
    push_neg at hc
    have hne : compute cfg q r ≠ Except.error Err.emptyInput := by
      by_cases ho : cfg.otiBinary = true
      · by_cases hb : cfg.toBlocked = true
        · rcases hA : toTimeEmbeddingCall q cfg.embedDimension cfg.tau with eA | vA <;>
            rcases hB : toTimeEmbeddingCall r cfg.embedDimension cfg.tau with eB | vB <;>
            simp [compute, hc.1, hc.2, ho, hb, hA, hB]
        · simp [compute, hc.1, hc.2, ho, hb]
      · rcases hA : toTimeEmbeddingCall q cfg.embedDimension cfg.tau with eA | vA <;>
          rcases hB : toTimeEmbeddingCall (rotatedReference cfg q r)
            cfg.embedDimension cfg.tau with eB | vB <;>
          by_cases hp : batchPdistances cfg q r = [] <;>
          simp [compute, hc.1, hc.2, ho, hp, hA, hB]
    exact hne h
  · intro h
    by_cases hq : q = [] <;> rcases h with h | h <;> simp [compute, h, hq]

/-! Claim C4: batch OTI-binary mode and the toBlocked flag. -/

/-- C4 (counterexample): with `otiBinary` set, `embedDimension = 2`,
`tau = 1` and a single-frame query and reference, the `toBlocked = true`
branch throws `std::length_error` from its first, discarded time-embedding
call (one frame is fewer than `embedDimension*tau = 2` frames), while the
`toBlocked = false` branch embeds nothing and returns the binary similarity
matrix: the two flag values are not equivalent on such inputs, refuting the
claimed equality for every pair of non-empty inputs. -/
theorem C4_counterexample :
    compute (Params.mk 1 2 1 0 false true true true) [[(1 : ℚ)]] [[(1 : ℚ)]] =
      Except.error Err.lengthError ∧
    compute (Params.mk 1 2 1 0 false true false true) [[(1 : ℚ)]] [[(1 : ℚ)]] =
      Except.ok [[(1 : ℚ)]] ∧
    (Except.error Err.lengthError : Except Err Mat) ≠ Except.ok [[(1 : ℚ)]] := by
  refine ⟨by decide, ?_, by decide⟩
  have hbin : chromaBinarySimMatrix [[(1 : ℚ)]] [[(1 : ℚ)]] 0 1 0 = [[1]] := by
    norm_num [chromaBinarySimMatrix, dotProduct, argmax, argmaxAux, rotateRight,
      List.range_succ]
  simp [compute, hbin]

/-- C4 (amended): with `otiBinary` set, both `toBlocked` branches return the
binary similarity matrix of the raw, un-embedded inputs with `noti` shifts
and coefficients `1` and `0`, provided the discarded embedding calls of the
`toBlocked = true` branch cannot fail -- that is, when `embedDimension = 1`
or both inputs hold at least `embedDimension*tau` frames.  When an input is
strictly shorter than `embedDimension*tau` frames (with
`embedDimension >= 2`), the `toBlocked = true` branch instead throws
`std::length_error` from the discarded embedding while `toBlocked = false`
still returns the matrix (see the counterexample). -/
theorem C4_theorem (cfg : Params) (q r : Mat) (hq : q ≠ []) (hr : r ≠ [])
    (hob : cfg.otiBinary = true)
    (hsafe : cfg.embedDimension = 1 ∨
      (cfg.embedDimension * cfg.tau ≤ q.length ∧
        cfg.embedDimension * cfg.tau ≤ r.length)) :
    compute cfg q r = Except.ok (chromaBinarySimMatrix q r cfg.noti 1 0) ∧
    compute { cfg with toBlocked := true } q r =
      compute { cfg with toBlocked := false } q r := by
  have hA : toTimeEmbeddingCall q cfg.embedDimension cfg.tau =
      Except.ok (toTimeEmbedding q cfg.embedDimension cfg.tau) := by
    rw [toTimeEmbeddingCall, if_neg]
    rintro ⟨hm1, hlt⟩
    rcases hsafe with h1 | ⟨h2, h3⟩
    · exact hm1 h1
    · omega
  have hB : toTimeEmbeddingCall r cfg.embedDimension cfg.tau =
      Except.ok (toTimeEmbedding r cfg.embedDimension cfg.tau) := by
    rw [toTimeEmbeddingCall, if_neg]
    rintro ⟨hm1, hlt⟩
    rcases hsafe with h1 | ⟨h2, h3⟩
    · exact hm1 h1
    · omega
  constructor
  · by_cases hb : cfg.toBlocked = true <;> simp [compute, hq, hr, hob, hb, hA, hB]
  · simp [compute, hq, hr, hob, hA, hB]

/-- C4 (witness): a concrete 2-frame query and reference in OTI-binary mode
with `embedDimension = 1`, where the embedding calls cannot fail. -/
theorem C4_witness :
    ([[(1 : ℚ), 0], [0, 1]] : Mat) ≠ [] ∧ ([[(0 : ℚ), 1], [1, 0]] : Mat) ≠ [] ∧
    (Params.mk 1 1 1 0 false true false true).otiBinary = true ∧
    ((Params.mk 1 1 1 0 false true false true).embedDimension = 1 ∨
      ((Params.mk 1 1 1 0 false true false true).embedDimension *
          (Params.mk 1 1 1 0 false true false true).tau ≤
          ([[(1 : ℚ), 0], [0, 1]] : Mat).length ∧
        (Params.mk 1 1 1 0 false true false true).embedDimension *
          (Params.mk 1 1 1 0 false true false true).tau ≤
          ([[(0 : ℚ), 1], [1, 0]] : Mat).length)) ∧
    (compute (Params.mk 1 1 1 0 false true false true) [[(1 : ℚ), 0], [0, 1]]
        [[(0 : ℚ), 1], [1, 0]] =
      Except.ok (chromaBinarySimMatrix [[(1 : ℚ), 0], [0, 1]] [[(0 : ℚ), 1], [1, 0]]
        (Params.mk 1 1 1 0 false true false true).noti 1 0) ∧
    compute { Params.mk 1 1 1 0 false true false true with toBlocked := true }
        [[(1 : ℚ), 0], [0, 1]] [[(0 : ℚ), 1], [1, 0]] =
      compute { Params.mk 1 1 1 0 false true false true with toBlocked := false }
        [[(1 : ℚ), 0], [0, 1]] [[(0 : ℚ), 1], [1, 0]]) := by
  refine ⟨by decide, by decide, by decide, Or.inl (by decide), ?_⟩
  exact C4_theorem _ _ _ (by decide) (by decide) (by decide) (Or.inl (by decide))

/-! Claim C10: batch compute leaves the caller buffers unchanged. -/

/-- C10 (confirmed): the batch engine reads its inputs into by-value copies,
so after a call the caller-held query and reference buffers are unchanged,
whether the call returns normally or with an error; on an error nothing at
all has been written. -/
theorem C10_theorem (cfg : Params) (s : BatchBuffers) :
    (computeEngine cfg s).1.queryFeature = s.queryFeature ∧
    (computeEngine cfg s).1.referenceFeature = s.referenceFeature ∧
    (∀ e, (computeEngine cfg s).2 = some e → (computeEngine cfg s).1 = s) := by
  unfold computeEngine
  cases h : compute cfg s.queryFeature s.referenceFeature <;> simp [h]

/-- Reading the first `k` positions of a list through `get?` succeeds and
collects exactly the first `k` elements, as long as `k` is within bounds. -/
theorem range_mapM_get {α : Type} (l : List α) (k : ℕ) (h : k ≤ l.length) :
    (List.range k).mapM l.get? = some (l.take k) := by
  induction k with
  | zero => rfl
  | succ n ih =>
    have hn : n < l.length := by omega
    have hg : l.get? n = some l[n] := by
      rw [List.get?_eq_getElem?, List.getElem?_eq_getElem hn]
    rw [List.range_succ, List.mapM_append, ih (by omega)]
    rw [List.take_succ, List.getElem?_eq_getElem hn]
    simp only [List.mapM_cons, List.mapM_nil, hg]
    rfl

/-! Claim C6: streaming padding of an undersized acquired window. -/

/-- C6 (counterexample): with `embedDimension = 2` the minimum window is
`3`; an end-of-stream invocation that acquired a single frame enters the
padding loop with a shortfall of `2`, and at `i = 1` the source reads
`inputQueryFrames[1]` past the end of the one-frame acquired window (an
out-of-bounds access, `none` in the embedding), so no copy of the minimum
length is produced, contradicting the claim that the copy is always padded
up to the minimum window size. -/
theorem C6_counterexample :
    padFrames [[(1 : ℚ), 0, 0]] 3 = none := by
  decide

/-- C6 (amended): whenever the shortfall `minSize - acquired.length` is at
most the acquired count, the private working copy is the acquired frames
followed by the first `minSize - acquired.length` acquired frames in order,
and its length is `max minSize acquired.length`: the minimum window when the
acquired count is below it (the shortfall is then positive), and the
acquired window unchanged otherwise (the shortfall is then `0`).  When the
shortfall exceeds the acquired count, the source indexes past the end of the
acquired window instead (see the counterexample). -/
theorem C6_theorem (acquired : Mat) (minSize : ℕ)
    (h2 : minSize - acquired.length ≤ acquired.length) :
    padFrames acquired minSize =
      some (acquired ++ acquired.take (minSize - acquired.length)) ∧
    (acquired ++ acquired.take (minSize - acquired.length)).length =
      max minSize acquired.length := by
  by_cases hlt : acquired.length < minSize
  · constructor
    · rw [padFrames, if_pos hlt, range_mapM_get _ _ h2]
      rfl
    · simp only [List.length_append, List.length_take]
      rw [Nat.max_eq_left (by omega : acquired.length ≤ minSize)]
      omega
  · have h0 : minSize - acquired.length = 0 := by omega
    rw [padFrames, if_neg hlt, h0]
    constructor
    · simp
    · simp only [List.take_zero, List.append_nil]
      rw [Nat.max_eq_right (by omega : minSize ≤ acquired.length)]

/-- C6 (witness): two acquired frames with a minimum window of three are
padded to three frames by repeating the first acquired frame. -/
theorem C6_witness :
    3 - ([[(1 : ℚ), 0], [0, 1]] : Mat).length ≤ ([[(1 : ℚ), 0], [0, 1]] : Mat).length ∧
    (padFrames [[(1 : ℚ), 0], [0, 1]] 3 =
      some ([[(1 : ℚ), 0], [0, 1]] ++
        ([[(1 : ℚ), 0], [0, 1]] : Mat).take (3 - ([[(1 : ℚ), 0], [0, 1]] : Mat).length)) ∧
    (([[(1 : ℚ), 0], [0, 1]] : Mat) ++
        ([[(1 : ℚ), 0], [0, 1]] : Mat).take (3 - ([[(1 : ℚ), 0], [0, 1]] : Mat).length)).length =
      max 3 ([[(1 : ℚ), 0], [0, 1]] : Mat).length) := by
  refine ⟨by decide, ?_⟩
  exact C6_theorem _ 3 (by decide)

/-! Claim C5: streaming OTI rotation mutates the held reference in place. -/

/-- With `oti` enabled, any streaming invocation that reaches the
computation leaves as engine state the held reference buffer rotated in
place by the transposition index freshly computed against that same held
buffer. -/
theorem processStreamStep_oti (cfg : Params) (st : StreamState) (acq copy : Mat)
    (hoti : cfg.oti = true)
    (h : padFrames acq (minFramesSize cfg) = some copy) :
    ∃ out, processStreamStep cfg st acq =
      some (out, StreamState.mk (rotateRight st.referenceFeature
        (optimalTranspositionIndex copy st.referenceFeature cfg.noti))) := by
  unfold processStreamStep
  rw [h]
  simp only [hoti, if_true]
  cases hb : cfg.otiBinary <;> simp

/-- C5 (confirmed): in streaming mode with `oti` enabled, every invocation
that proceeds to computation replaces the stored reference buffer by its own
rotation by the index computed against the current buffer contents; over two
successive invocations the second index is computed from, and the second
rotation applied to, the already-rotated buffer, so the rotations compound.
The engine state is exactly the stored reference buffer (the only datum
`process` mutates across invocations), so nothing restores the original
reference. -/
theorem C5_theorem (cfg : Params) (st : StreamState) (acq1 acq2 copy1 copy2 : Mat)
    (hoti : cfg.oti = true)
    (h1 : padFrames acq1 (minFramesSize cfg) = some copy1)
    (h2 : padFrames acq2 (minFramesSize cfg) = some copy2) :
    ∃ out1 out2,
      processStreamStep cfg st acq1 =
        some (out1, StreamState.mk (rotateRight st.referenceFeature
          (optimalTranspositionIndex copy1 st.referenceFeature cfg.noti))) ∧
      processStreamStep cfg
          (StreamState.mk (rotateRight st.referenceFeature
            (optimalTranspositionIndex copy1 st.referenceFeature cfg.noti))) acq2 =
        some (out2, StreamState.mk (rotateRight
          (rotateRight st.referenceFeature
            (optimalTranspositionIndex copy1 st.referenceFeature cfg.noti))
          (optimalTranspositionIndex copy2
            (rotateRight st.referenceFeature
              (optimalTranspositionIndex copy1 st.referenceFeature cfg.noti))
            cfg.noti))) := by
  obtain ⟨o1, e1⟩ := processStreamStep_oti cfg st acq1 copy1 hoti h1
  obtain ⟨o2, e2⟩ := processStreamStep_oti cfg
    (StreamState.mk (rotateRight st.referenceFeature
      (optimalTranspositionIndex copy1 st.referenceFeature cfg.noti))) acq2 copy2 hoti h2
  exact ⟨o1, o2, e1, e2⟩

/-- C5 (witness): two streaming invocations on a concrete engine with `oti`
enabled and a two-frame minimum window. -/
theorem C5_witness :
    (Params.mk 1 1 1 1 true true false true).oti = true ∧
    padFrames [[(0 : ℚ), 4], [0, 4]] (minFramesSize (Params.mk 1 1 1 1 true true false true)) =
      some [[(0 : ℚ), 4], [0, 4]] ∧
    padFrames [[(2 : ℚ), 0], [2, 0]] (minFramesSize (Params.mk 1 1 1 1 true true false true)) =
      some [[(2 : ℚ), 0], [2, 0]] ∧
    (∃ out1 out2,
      processStreamStep (Params.mk 1 1 1 1 true true false true)
          (StreamState.mk [[(4 : ℚ), 0], [4, 0]]) [[(0 : ℚ), 4], [0, 4]] =
        some (out1, StreamState.mk (rotateRight [[(4 : ℚ), 0], [4, 0]]
          (optimalTranspositionIndex [[(0 : ℚ), 4], [0, 4]] [[(4 : ℚ), 0], [4, 0]]
            (Params.mk 1 1 1 1 true true false true).noti))) ∧
      processStreamStep (Params.mk 1 1 1 1 true true false true)
          (StreamState.mk (rotateRight [[(4 : ℚ), 0], [4, 0]]
            (optimalTranspositionIndex [[(0 : ℚ), 4], [0, 4]] [[(4 : ℚ), 0], [4, 0]]
              (Params.mk 1 1 1 1 true true false true).noti))) [[(2 : ℚ), 0], [2, 0]] =
        some (out2, StreamState.mk (rotateRight
          (rotateRight [[(4 : ℚ), 0], [4, 0]]
            (optimalTranspositionIndex [[(0 : ℚ), 4], [0, 4]] [[(4 : ℚ), 0], [4, 0]]
              (Params.mk 1 1 1 1 true true false true).noti))
          (optimalTranspositionIndex [[(2 : ℚ), 0], [2, 0]]
            (rotateRight [[(4 : ℚ), 0], [4, 0]]
              (optimalTranspositionIndex [[(0 : ℚ), 4], [0, 4]] [[(4 : ℚ), 0], [4, 0]]
                (Params.mk 1 1 1 1 true true false true).noti))
            (Params.mk 1 1 1 1 true true false true).noti)))) := by
  refine ⟨by decide, by decide, by decide, ?_⟩
  exact C5_theorem _ _ _ _ _ _ (by decide) (by decide) (by decide)

/-! Shape lemmas for the batch distance pipeline. -/

theorem headD_eq_getD {α : Type} (l : List α) (d : α) : l.headD d = l.getD 0 d := by
  cases l <;> rfl

theorem getD_map_lt {α β : Type} (f : α → β) (l : List α) (i : ℕ) (d : α) (db : β)
    (h : i < l.length) : (l.map f).getD i db = f (l.getD i d) := by
  have hl : i < (l.map f).length := by simpa using h
  rw [List.getD_eq_getElem _ _ hl, List.getD_eq_getElem _ _ h]
  simp

theorem length_batchPdistances (cfg : Params) (q r : Mat) :
    (batchPdistances cfg q r).length = (batchEmbedA cfg q).length := by
  simp [batchPdistances, pairwiseDistance]

theorem width_batchPdistances (cfg : Params) (q r : Mat) (i : ℕ)
    (h : i < (batchEmbedA cfg q).length) :
    ((batchPdistances cfg q r).getD i []).length = (batchEmbedB cfg q r).length := by
  unfold batchPdistances pairwiseDistance
  rw [getD_map_lt _ _ _ [] _ h]
  simp

theorem length_transpose (m : Mat) : (transpose m).length = (m.headD []).length := by
  simp [transpose]

theorem getD_transpose (m : Mat) (j : ℕ) (h : j < (m.headD []).length) :
    (transpose m).getD j [] = m.map (fun row => row.getD j 0) := by
  unfold transpose
  rw [getD_range_map _ _ _ _ h]

theorem length_batchSimilarityX (cfg : Params) (q r : Mat) :
    (batchSimilarityX cfg q r).length = (batchEmbedA cfg q).length := by
  unfold batchSimilarityX heavisideStepFunction
  split <;> simp [length_batchPdistances]

theorem width_batchSimilarityX (cfg : Params) (q r : Mat) (i : ℕ)
    (h : i < (batchEmbedA cfg q).length) :
    ((batchSimilarityX cfg q r).getD i []).length =
      ((batchPdistances cfg q r).headD []).length := by
  have hpd : i < (batchPdistances cfg q r).length := by
    rw [length_batchPdistances]; exact h
  unfold batchSimilarityX heavisideStepFunction
  split
  · rw [getD_replicate_of_lt _ _ _ _ hpd]
    simp
  · rw [getD_map_lt _ _ _ [] _ (by simpa using hpd), getD_range_map _ _ _ _ hpd]
    simp

theorem length_batchTSimilarityY (cfg : Params) (q r : Mat)
    (ha : 0 < (batchEmbedA cfg q).length) (hb : 0 < (batchEmbedB cfg q r).length) :
    (batchTSimilarityY cfg q r).length = (batchEmbedA cfg q).length := by
  unfold batchTSimilarityY
  simp only [List.length_map, List.length_range]
  rw [headD_eq_getD, getD_transpose _ _ (by
    rw [headD_eq_getD, width_batchPdistances cfg q r 0 ha]; omega)]
  simp [length_batchPdistances]

theorem width_batchTSimilarityY (cfg : Params) (q r : Mat)
    (ha : 0 < (batchEmbedA cfg q).length) (hb : 0 < (batchEmbedB cfg q r).length)
    (i : ℕ) (hi : i < (batchEmbedA cfg q).length) :
    ((batchTSimilarityY cfg q r).getD i []).length = (batchEmbedB cfg q r).length := by
  have hyCols : ((transpose (batchPdistances cfg q r)).headD []).length =
      (batchEmbedA cfg q).length := by
    rw [headD_eq_getD, getD_transpose _ _ (by
      rw [headD_eq_getD, width_batchPdistances cfg q r 0 ha]; omega)]
    simp [length_batchPdistances]
  have hyRows : (transpose (batchPdistances cfg q r)).length =
      (batchEmbedB cfg q r).length := by
    rw [length_transpose, headD_eq_getD, width_batchPdistances cfg q r 0 ha]
  simp only [batchTSimilarityY]
  rw [getD_range_map _ _ _ _ (by rw [hyCols]; exact hi)]
  rw [List.length_map, List.length_range, hyRows]

theorem batchCsm_eq (cfg : Params) (q r : Mat)
    (ha : 0 < (batchEmbedA cfg q).length) (hb : 0 < (batchEmbedB cfg q r).length) :
    batchCsm cfg q r =
      List.zipWith (fun ra rb => List.zipWith (fun x y => x * y) ra rb)
        (batchSimilarityX cfg q r) (batchTSimilarityY cfg q r) := by
  unfold batchCsm elemMul
  rw [if_pos]
  refine ⟨?_, ?_⟩
  · rw [length_batchSimilarityX, length_batchTSimilarityY cfg q r ha hb]
  · rw [headD_eq_getD, headD_eq_getD, width_batchSimilarityX cfg q r 0 ha,
      width_batchTSimilarityY cfg q r ha hb 0 ha, headD_eq_getD,
      width_batchPdistances cfg q r 0 ha]

/-- With non-empty inputs, `otiBinary` unset and non-empty embedded query
and reference, neither embedding call can throw, and batch `compute`
reaches the Combine step and returns the combined matrix. -/
theorem compute_distance_ok (cfg : Params) (q r : Mat) (hob : cfg.otiBinary = false)
    (hq : q ≠ []) (hr : r ≠ []) (ha : 0 < (batchEmbedA cfg q).length)
    (hb : 0 < (batchEmbedB cfg q r).length) :
    compute cfg q r = Except.ok (batchCsm cfg q r) := by
  have hcallA : toTimeEmbeddingCall q cfg.embedDimension cfg.tau =
      Except.ok (toTimeEmbedding q cfg.embedDimension cfg.tau) := by
    rw [toTimeEmbeddingCall, if_neg]
    rintro ⟨hm1, hlt⟩
    rw [batchEmbedA, length_toTimeEmbedding, if_neg hm1] at ha
    omega
  have hcallB : toTimeEmbeddingCall (rotatedReference cfg q r)
      cfg.embedDimension cfg.tau =
      Except.ok (toTimeEmbedding (rotatedReference cfg q r)
        cfg.embedDimension cfg.tau) := by
    rw [toTimeEmbeddingCall, if_neg]
    rintro ⟨hm1, hlt⟩
    rw [batchEmbedB, length_toTimeEmbedding, if_neg hm1] at hb
    omega
  have hpd : ¬ batchPdistances cfg q r = [] := by
    intro hn
    have hlen := length_batchPdistances cfg q r
    rw [hn] at hlen
    simp at hlen
    omega
  simp [compute, hq, hr, hob, hcallA, hcallB, hpd]

/-! Claim C1: the Combine step of the batch distance path. -/

/-- Concrete evaluation of the pairwise distances for the run refuting the
matrix-product reading of the Combine step. -/
theorem c1PdEval :
    batchPdistances (Params.mk 1 1 1 0 false false false true)
      [[(1 : ℚ), 0], [0, 1], [1, 0]] [[(1 : ℚ), 0], [0, 1], [1, 0]] =
    [[0, 2, 0], [2, 0, 2], [0, 2, 0]] := by
  norm_num [batchPdistances, pairwiseDistance, batchEmbedA, batchEmbedB,
    rotatedReference, toTimeEmbedding, sqEuclid, dotProduct]

/-- Concrete evaluation of the query-axis mask for the same run: the
all-pass mask, since `optimiseThreshold` is set. -/
theorem c1SimilarityXEval :
    batchSimilarityX (Params.mk 1 1 1 0 false false false true)
      [[(1 : ℚ), 0], [0, 1], [1, 0]] [[(1 : ℚ), 0], [0, 1], [1, 0]] =
    [[1, 1, 1], [1, 1, 1], [1, 1, 1]] := by
  rw [batchSimilarityX, c1PdEval]
  norm_num [List.replicate]

/-- Concrete evaluation of the binarized and transposed reference-axis mask
for the same run: all ones, since `kappa = 1` thresholds at the row
maximum. -/
theorem c1TSimilarityYEval :
    batchTSimilarityY (Params.mk 1 1 1 0 false false false true)
      [[(1 : ℚ), 0], [0, 1], [1, 0]] [[(1 : ℚ), 0], [0, 1], [1, 0]] =
    [[1, 1, 1], [1, 1, 1], [1, 1, 1]] := by
  rw [batchTSimilarityY, batchSimilarityY, c1PdEval]
  norm_num [transpose, percentile, percentileIndex, sortAsc, insertAsc, List.range_succ]
  decide

/-- C1 (counterexample): a concrete distance-mode run on a 3-frame query and
reference with an all-pass query mask.  The produced matrix is all ones and
its entry `(0,0)` is `1`, but the sum over `k` of
`similarityX[0][k] * tSimilarityY[k][0]` is `3`: the Combine step is not the
standard matrix product the claim asserts. -/
theorem C1_counterexample :
    compute (Params.mk 1 1 1 0 false false false true)
        [[(1 : ℚ), 0], [0, 1], [1, 0]] [[(1 : ℚ), 0], [0, 1], [1, 0]] =
      Except.ok [[1, 1, 1], [1, 1, 1], [1, 1, 1]] ∧
    entry [[(1 : ℚ), 1, 1], [1, 1, 1], [1, 1, 1]] 0 0 ≠
      matProdEntry
        (batchSimilarityX (Params.mk 1 1 1 0 false false false true)
          [[(1 : ℚ), 0], [0, 1], [1, 0]] [[(1 : ℚ), 0], [0, 1], [1, 0]])
        (batchTSimilarityY (Params.mk 1 1 1 0 false false false true)
          [[(1 : ℚ), 0], [0, 1], [1, 0]] [[(1 : ℚ), 0], [0, 1], [1, 0]]) 0 0 := by
  constructor
  · have hok : compute (Params.mk 1 1 1 0 false false false true)
        [[(1 : ℚ), 0], [0, 1], [1, 0]] [[(1 : ℚ), 0], [0, 1], [1, 0]] =
        Except.ok (batchCsm (Params.mk 1 1 1 0 false false false true)
          [[(1 : ℚ), 0], [0, 1], [1, 0]] [[(1 : ℚ), 0], [0, 1], [1, 0]]) :=
      compute_distance_ok _ _ _ (by decide) (by decide) (by decide)
        (by decide) (by decide)
    rw [hok, batchCsm, c1SimilarityXEval, c1TSimilarityYEval]
    norm_num [elemMul]
  · rw [c1SimilarityXEval, c1TSimilarityYEval]
    norm_num [matProdEntry, entry, List.range_succ]

/-- C1 (amended): in batch distance mode, for every pair of non-empty inputs
whose embedded sequences are non-empty, entry `(i, j)` of the final matrix is
the element-wise product `similarityX[i][j] * tSimilarityY[i][j]` of the
query-axis mask and the binarized-and-transposed reference-axis mask (the
TNT array product combines equal-shaped arrays entry by entry, a logical AND
on 0/1 masks), not the matrix-product sum of the original claim. -/
theorem C1_theorem (cfg : Params) (q r : Mat) (hob : cfg.otiBinary = false)
    (hq : q ≠ []) (hr : r ≠ [])
    (ha : 0 < (batchEmbedA cfg q).length) (hb : 0 < (batchEmbedB cfg q r).length)
    (i j : ℕ) (hi : i < (batchEmbedA cfg q).length)
    (hj : j < (batchEmbedB cfg q r).length) :
    ∃ out, compute cfg q r = Except.ok out ∧
      entry out i j =
        entry (batchSimilarityX cfg q r) i j * entry (batchTSimilarityY cfg q r) i j := by
  refine ⟨batchCsm cfg q r, compute_distance_ok cfg q r hob hq hr ha hb, ?_⟩
  rw [batchCsm_eq cfg q r ha hb]
  show ((List.zipWith _ _ _).getD i []).getD j 0 = _
  rw [getD_zipWith _ _ _ _ [] [] []
    (by rw [length_batchSimilarityX]; exact hi)
    (by rw [length_batchTSimilarityY cfg q r ha hb]; exact hi)]
  rw [getD_zipWith _ _ _ _ 0 0 0
    (by rw [width_batchSimilarityX cfg q r i hi, headD_eq_getD,
      width_batchPdistances cfg q r 0 ha]; exact hj)
    (by rw [width_batchTSimilarityY cfg q r ha hb i hi]; exact hj)]
  rfl

/-- C1 (witness): the element-wise combination law instantiated at entry
`(0, 0)` of the concrete run used in the counterexample. -/
theorem C1_witness :
    (Params.mk 1 1 1 0 false false false true).otiBinary = false ∧
    ([[(1 : ℚ), 0], [0, 1], [1, 0]] : Mat) ≠ [] ∧
    0 < (batchEmbedA (Params.mk 1 1 1 0 false false false true)
      [[(1 : ℚ), 0], [0, 1], [1, 0]]).length ∧
    0 < (batchEmbedB (Params.mk 1 1 1 0 false false false true)
      [[(1 : ℚ), 0], [0, 1], [1, 0]] [[(1 : ℚ), 0], [0, 1], [1, 0]]).length ∧
    (∃ out, compute (Params.mk 1 1 1 0 false false false true)
        [[(1 : ℚ), 0], [0, 1], [1, 0]] [[(1 : ℚ), 0], [0, 1], [1, 0]] = Except.ok out ∧
      entry out 0 0 =
        entry (batchSimilarityX (Params.mk 1 1 1 0 false false false true)
          [[(1 : ℚ), 0], [0, 1], [1, 0]] [[(1 : ℚ), 0], [0, 1], [1, 0]]) 0 0 *
        entry (batchTSimilarityY (Params.mk 1 1 1 0 false false false true)
          [[(1 : ℚ), 0], [0, 1], [1, 0]] [[(1 : ℚ), 0], [0, 1], [1, 0]]) 0 0) := by
  refine ⟨by decide, by decide, by decide, by decide, ?_⟩
  exact C1_theorem _ _ _ (by decide) (by decide) (by decide) (by decide) (by decide)
    0 0 (by decide) (by decide)

/-! Claim C3: dimensions of the batch distance-mode output. -/

theorem length_rotatedReference (cfg : Params) (q r : Mat) :
    (rotatedReference cfg q r).length = r.length := by
  unfold rotatedReference
  split
  · rw [length_rotateRight]
  · rfl

/-- C3 (counterexample): a single-frame query and reference with
`embedDimension = 2`, `tau = 1` in distance mode.  The claim promises a
returned matrix with `rows = queryFrames - embedDimension*tau` and
`cols = referenceFrames - embedDimension*tau`, but the embedded sequences
are empty, the pairwise distance matrix is empty, and the call fails with
the empty-result error instead of returning any matrix. -/
theorem C3_counterexample :
    compute (Params.mk 1 2 1 0 false false false true) [[(1 : ℚ)], [0]] [[(1 : ℚ)], [0]] =
      Except.error Err.emptyResult := by
  decide

/-- C3 (amended): in batch distance mode, for non-empty inputs that are
moreover long enough for both embedded sequences to be non-empty (any
length when `embedDimension = 1`, strictly more than `embedDimension * tau`
frames when `embedDimension >= 2`), the returned matrix has
`rows = queryFrames` and `cols = referenceFrames` for `embedDimension = 1`,
and `rows = queryFrames - embedDimension*tau`,
`cols = referenceFrames - embedDimension*tau` otherwise; for shorter inputs
the call fails with the empty-result error instead of returning a matrix
(see the counterexample). -/
theorem C3_theorem (cfg : Params) (q r : Mat) (hob : cfg.otiBinary = false)
    (hq : q ≠ []) (hr : r ≠ [])
    (hcase : cfg.embedDimension = 1 ∨
      (2 ≤ cfg.embedDimension ∧ cfg.embedDimension * cfg.tau < q.length ∧
        cfg.embedDimension * cfg.tau < r.length)) :
    ∃ out, compute cfg q r = Except.ok out ∧
      out.length =
        (if cfg.embedDimension = 1 then q.length
         else q.length - cfg.embedDimension * cfg.tau) ∧
      ∀ i, i < out.length →
        (out.getD i []).length =
          (if cfg.embedDimension = 1 then r.length
           else r.length - cfg.embedDimension * cfg.tau) := by
  have hA : (batchEmbedA cfg q).length =
      (if cfg.embedDimension = 1 then q.length
       else q.length - cfg.embedDimension * cfg.tau) := by
    rw [batchEmbedA, length_toTimeEmbedding]
  have hB : (batchEmbedB cfg q r).length =
      (if cfg.embedDimension = 1 then r.length
       else r.length - cfg.embedDimension * cfg.tau) := by
    rw [batchEmbedB, length_toTimeEmbedding, length_rotatedReference]
  have ha : 0 < (batchEmbedA cfg q).length := by
    rw [hA]
    rcases hcase with h1 | ⟨h2, h3, h4⟩
    · rw [if_pos h1]
      exact List.length_pos.mpr hq
    · rw [if_neg (by omega)]
      omega
  have hb : 0 < (batchEmbedB cfg q r).length := by
    rw [hB]
    rcases hcase with h1 | ⟨h2, h3, h4⟩
    · rw [if_pos h1]
      exact List.length_pos.mpr hr
    · rw [if_neg (by omega)]
      omega
  refine ⟨batchCsm cfg q r, compute_distance_ok cfg q r hob hq hr ha hb, ?_, ?_⟩
  · rw [batchCsm_eq cfg q r ha hb, List.length_zipWith, length_batchSimilarityX,
      length_batchTSimilarityY cfg q r ha hb, Nat.min_self, hA]
  · intro i hi
    rw [batchCsm_eq cfg q r ha hb, List.length_zipWith, length_batchSimilarityX,
      length_batchTSimilarityY cfg q r ha hb, Nat.min_self] at hi
    rw [batchCsm_eq cfg q r ha hb]
    rw [getD_zipWith _ _ _ _ [] [] []
      (by rw [length_batchSimilarityX]; exact hi)
      (by rw [length_batchTSimilarityY cfg q r ha hb]; exact hi)]
    rw [List.length_zipWith, width_batchSimilarityX cfg q r i hi, headD_eq_getD,
      width_batchPdistances cfg q r 0 ha, width_batchTSimilarityY cfg q r ha hb i hi,
      Nat.min_self, hB]

/-- C3 (witness): a 4-frame query against a 5-frame reference with
`embedDimension = 2`, `tau = 1` yields a `2 x 3` matrix. -/
theorem C3_witness :
    (Params.mk 1 2 1 0 false false false true).otiBinary = false ∧
    ([[(1 : ℚ)], [2], [3], [4]] : Mat) ≠ [] ∧
    ([[(1 : ℚ)], [2], [3], [4], [5]] : Mat) ≠ [] ∧
    ((Params.mk 1 2 1 0 false false false true).embedDimension = 1 ∨
      (2 ≤ (Params.mk 1 2 1 0 false false false true).embedDimension ∧
        (Params.mk 1 2 1 0 false false false true).embedDimension *
          (Params.mk 1 2 1 0 false false false true).tau <
          ([[(1 : ℚ)], [2], [3], [4]] : Mat).length ∧
        (Params.mk 1 2 1 0 false false false true).embedDimension *
          (Params.mk 1 2 1 0 false false false true).tau <
          ([[(1 : ℚ)], [2], [3], [4], [5]] : Mat).length)) ∧
    (∃ out, compute (Params.mk 1 2 1 0 false false false true)
        [[(1 : ℚ)], [2], [3], [4]] [[(1 : ℚ)], [2], [3], [4], [5]] = Except.ok out ∧
      out.length =
        (if (Params.mk 1 2 1 0 false false false true).embedDimension = 1 then
          ([[(1 : ℚ)], [2], [3], [4]] : Mat).length
         else ([[(1 : ℚ)], [2], [3], [4]] : Mat).length -
          (Params.mk 1 2 1 0 false false false true).embedDimension *
            (Params.mk 1 2 1 0 false false false true).tau) ∧
      ∀ i, i < out.length →
        (out.getD i []).length =
          (if (Params.mk 1 2 1 0 false false false true).embedDimension = 1 then
            ([[(1 : ℚ)], [2], [3], [4], [5]] : Mat).length
           else ([[(1 : ℚ)], [2], [3], [4], [5]] : Mat).length -
            (Params.mk 1 2 1 0 false false false true).embedDimension *
              (Params.mk 1 2 1 0 false false false true).tau)) := by
  refine ⟨by decide, by decide, by decide,
    Or.inr ⟨by decide, by decide, by decide⟩, ?_⟩
  exact C3_theorem _ _ _ (by decide) (by decide) (by decide)
    (Or.inr ⟨by decide, by decide, by decide⟩)

/-! Claim C8: scale invariance of the optimal transposition index. -/

theorem dotProduct_map_left (c : ℚ) : ∀ (a b : List ℚ),
    dotProduct (a.map (fun x => c * x)) b = c * dotProduct a b
  | [], b => by cases b <;> simp [dotProduct]
  | x :: xs, [] => by simp [dotProduct]
  | x :: xs, y :: ys => by
    simp only [List.map_cons, dotProduct]
    rw [dotProduct_map_left c xs ys]
    ring

theorem dotProduct_map_right (c : ℚ) : ∀ (a b : List ℚ),
    dotProduct a (b.map (fun x => c * x)) = c * dotProduct a b
  | [], b => by cases b <;> simp [dotProduct]
  | x :: xs, [] => by simp [dotProduct]
  | x :: xs, y :: ys => by
    simp only [List.map_cons, dotProduct]
    rw [dotProduct_map_right c xs ys]
    ring

theorem foldl_max_map_mul (c : ℚ) (hc : 0 ≤ c) : ∀ (xs : List ℚ) (x : ℚ),
    (xs.map (fun y => c * y)).foldl max (c * x) = c * xs.foldl max x
  | [], x => rfl
  | y :: ys, x => by
    simp only [List.map_cons, List.foldl_cons]
    rw [← mul_max_of_nonneg x y hc, foldl_max_map_mul c hc ys (max x y)]

theorem listMax_map_mul (c : ℚ) (hc : 0 ≤ c) (v : List ℚ) :
    listMax (v.map (fun x => c * x)) = c * listMax v := by
  cases v with
  | nil => simp [listMax]
  | cons x xs =>
    simp only [List.map_cons, listMax]
    exact foldl_max_map_mul c hc xs x

theorem normalizeVec_scale (c : ℚ) (hc : 0 < c) (v : List ℚ) :
    ∃ d, 0 < d ∧
      normalizeVec (v.map (fun x => c * x)) = (normalizeVec v).map (fun x => d * x) := by
  by_cases hv : v = []
  · exact ⟨1, one_pos, by simp [hv]⟩
  · have hmap : v.map (fun x => c * x) ≠ [] := by simpa using hv
    by_cases hm : listMax v = 0
    · refine ⟨c, hc, ?_⟩
      rw [normalizeVec, if_neg hmap, listMax_map_mul c hc.le v, hm, mul_zero,
        if_pos rfl, normalizeVec, if_neg hv, if_pos hm]
    · refine ⟨1, one_pos, ?_⟩
      rw [normalizeVec, if_neg hmap, listMax_map_mul c hc.le v,
        if_neg (mul_ne_zero hc.ne' hm), normalizeVec, if_neg hv, if_neg hm]
      simp only [List.map_map]
      have hfun : ((fun x => x / (c * listMax v)) ∘ fun x => c * x) =
          ((fun x => 1 * x) ∘ fun x => x / listMax v) := by
        funext x
        simp only [Function.comp]
        rw [mul_div_mul_left x (listMax v) hc.ne', one_mul]
      rw [hfun]

theorem getD_map_mul (c : ℚ) (row : List ℚ) (j : ℕ) :
    (row.map (fun x => c * x)).getD j 0 = c * row.getD j 0 := by
  by_cases h : j < row.length
  · rw [getD_map_lt _ _ _ 0 _ h]
  · rw [List.getD_eq_default _ _ (by simpa using Nat.le_of_not_lt h),
      List.getD_eq_default _ _ (Nat.le_of_not_lt h), mul_zero]

theorem globalAverageChroma_scale (c : ℚ) (hc : 0 < c) (a : Mat) :
    ∃ d, 0 < d ∧
      globalAverageChroma (scaleMat c a) =
        (globalAverageChroma a).map (fun x => d * x) := by
  have hbins : ((scaleMat c a).headD []).length = (a.headD []).length := by
    cases a <;> simp [scaleMat]
  have hsum : ∀ j : ℕ,
      ((scaleMat c a).map (fun row => row.getD j 0)).sum =
        c * (a.map (fun row => row.getD j 0)).sum := by
    intro j
    rw [scaleMat, List.map_map]
    have : ((fun row : List ℚ => row.getD j 0) ∘ List.map (fun x => c * x)) =
        fun row : List ℚ => c * row.getD j 0 := by
      funext row
      exact getD_map_mul c row j
    rw [this, List.sum_map_mul_left]
  simp only [globalAverageChroma, hbins]
  have hcols : (List.range (a.headD []).length).map (fun j =>
      ((scaleMat c a).map (fun row => row.getD j 0)).sum) =
      ((List.range (a.headD []).length).map (fun j =>
        (a.map (fun row => row.getD j 0)).sum)).map (fun x => c * x) := by
    rw [List.map_map]
    have : ((fun x => c * x) ∘ fun j => (a.map (fun row => row.getD j 0)).sum) =
        fun j => ((scaleMat c a).map (fun row => row.getD j 0)).sum := by
      funext j
      simp only [Function.comp]
      rw [hsum j]
    rw [this]
  rw [hcols]
  exact normalizeVec_scale c hc _

theorem argmaxAux_map_mul (c : ℚ) (hc : 0 < c) : ∀ (l : List ℚ) (idx : ℕ) (bv : ℚ) (best : ℕ),
    argmaxAux (l.map (fun x => c * x)) idx (c * bv) best = argmaxAux l idx bv best
  | [], _, _, _ => rfl
  | x :: xs, idx, bv, best => by
    simp only [List.map_cons, argmaxAux]
    by_cases h : bv < x
    · rw [if_pos ((mul_lt_mul_left hc).mpr h), if_pos h]
      exact argmaxAux_map_mul c hc xs (idx + 1) x idx
    · rw [if_neg (fun hx => h ((mul_lt_mul_left hc).mp hx)), if_neg h]
      exact argmaxAux_map_mul c hc xs (idx + 1) bv best

theorem argmax_map_mul (c : ℚ) (hc : 0 < c) (l : List ℚ) :
    argmax (l.map (fun x => c * x)) = argmax l := by
  cases l with
  | nil => rfl
  | cons x xs =>
    simp only [List.map_cons, argmax]
    exact argmaxAux_map_mul c hc xs 1 x 0

/-- Scaling both global chroma vectors by positive constants multiplies every
shift score by the same positive constant and therefore leaves the first
arg-max shift unchanged. -/
theorem otiShiftScores_scale (gA gB gA2 gB2 : List ℚ) (n : ℕ) (d e : ℚ)
    (hd : 0 < d) (he : 0 < e)
    (hA : gA2 = gA.map (fun x => d * x)) (hB : gB2 = gB.map (fun x => e * x)) :
    argmax ((List.range (n + 1)).map (fun i => dotProduct gA2 (rotateRight gB2 i))) =
      argmax ((List.range (n + 1)).map (fun i => dotProduct gA (rotateRight gB i))) := by
  have hpt : (fun i => dotProduct gA2 (rotateRight gB2 i)) =
      ((fun x => (d * e) * x) ∘ fun i => dotProduct gA (rotateRight gB i)) := by
    funext i
    simp only [Function.comp, hA, hB]
    rw [rotateRight_map, dotProduct_map_left, dotProduct_map_right]
    ring
  rw [hpt, ← List.map_map]
  exact argmax_map_mul (d * e) (mul_pos hd he) _

/-- C8 (confirmed): `optimalTranspositionIndex` is invariant under a uniform
positive scaling of the query sequence, of the reference sequence, or of
both: the per-bin sums scale linearly, the max-normalization either cancels
the factor or propagates it as a positive constant, every dot product then
scales by one positive constant across all shifts, and the first arg-max is
unchanged under a positive scaling of all scores. -/
theorem C8_theorem (a b : Mat) (n : ℕ) (c : ℚ) (_ha : a ≠ []) (_hb : b ≠ [])
    (hc : 0 < c) :
    optimalTranspositionIndex (scaleMat c a) b n = optimalTranspositionIndex a b n ∧
    optimalTranspositionIndex a (scaleMat c b) n = optimalTranspositionIndex a b n ∧
    optimalTranspositionIndex (scaleMat c a) (scaleMat c b) n =
      optimalTranspositionIndex a b n := by
  obtain ⟨d, hd, hda⟩ := globalAverageChroma_scale c hc a
  obtain ⟨e, he, heb⟩ := globalAverageChroma_scale c hc b
  have hone : ∀ v : List ℚ, v = v.map (fun x => 1 * x) := by
    intro v
    simp
  refine ⟨?_, ?_, ?_⟩
  · exact otiShiftScores_scale (globalAverageChroma a) (globalAverageChroma b) _ _ n d 1
      hd one_pos hda (hone _)
  · exact otiShiftScores_scale (globalAverageChroma a) (globalAverageChroma b) _ _ n 1 e
      one_pos he (hone _) heb
  · exact otiShiftScores_scale (globalAverageChroma a) (globalAverageChroma b) _ _ n d e
      hd he hda heb

/-- C8 (witness): scaling a concrete query, reference, or both by `3` leaves
the optimal transposition index unchanged. -/
theorem C8_witness :
    ([[(0 : ℚ), 4], [0, 4]] : Mat) ≠ [] ∧ ([[(4 : ℚ), 0], [4, 0]] : Mat) ≠ [] ∧
    (0 : ℚ) < 3 ∧
    (optimalTranspositionIndex (scaleMat 3 [[(0 : ℚ), 4], [0, 4]]) [[(4 : ℚ), 0], [4, 0]] 2 =
      optimalTranspositionIndex [[(0 : ℚ), 4], [0, 4]] [[(4 : ℚ), 0], [4, 0]] 2 ∧
    optimalTranspositionIndex [[(0 : ℚ), 4], [0, 4]] (scaleMat 3 [[(4 : ℚ), 0], [4, 0]]) 2 =
      optimalTranspositionIndex [[(0 : ℚ), 4], [0, 4]] [[(4 : ℚ), 0], [4, 0]] 2 ∧
    optimalTranspositionIndex (scaleMat 3 [[(0 : ℚ), 4], [0, 4]])
        (scaleMat 3 [[(4 : ℚ), 0], [4, 0]]) 2 =
      optimalTranspositionIndex [[(0 : ℚ), 4], [0, 4]] [[(4 : ℚ), 0], [4, 0]] 2) := by
  refine ⟨by decide, by decide, by decide, ?_⟩
  exact C8_theorem _ _ 2 3 (by decide) (by decide) (by decide)
